import Mathlib

/-!
Verification of the canonical ACE model and translation-table engine of
`lib/stdacls.h` (transport-neutral ACLs for rsync).

The header defines the canonical 32-bit ACE bit layout (permission,
tag, type and flag fields plus validity masks), the brand/type/tag/flag
vocabularies under two naming schemes (preprocessor constants prefixed
with an underscore, and enum members), and the translation-table entry
type `RSYNC_ACEMAP_T`.  The operations of the specification (`validate`,
`validate_for_brand`, `build_table`, `encode_native_to_canonical`,
`decode_canonical_to_native`, `translate_ace`, `translate_acl`) are not
present in the header; where a claim needs them they are modelled from
the specification text, and each such definition is marked accordingly.

Machine integers are embedded as `Nat`; all values involved stay below
`2 ^ 32` where that matters and the relevant bounds are stated
explicitly.
-/

namespace StdAcls

/-! ### ACL brands (lib/stdacls.h, lines 31-39) -/

def _RSYNC_ACL_BRAND_UNKNOWN : Nat := 0

def _RSYNC_ACL_BRAND_POSIX : Nat := 1

def _RSYNC_ACL_BRAND_NFS4 : Nat := 2

inductive RSYNC_ACL_BRAND_T where
  | RSYNC_ACL_BRAND_UNKNOWN
  | RSYNC_ACL_BRAND_POSIX
  | RSYNC_ACL_BRAND_NFS4
deriving DecidableEq, Repr

def RSYNC_ACL_BRAND_T.val : RSYNC_ACL_BRAND_T → Nat
  | .RSYNC_ACL_BRAND_UNKNOWN => _RSYNC_ACL_BRAND_UNKNOWN
  | .RSYNC_ACL_BRAND_POSIX => _RSYNC_ACL_BRAND_POSIX
  | .RSYNC_ACL_BRAND_NFS4 => _RSYNC_ACL_BRAND_NFS4

/-! ### ACL types (lib/stdacls.h, lines 45-55) -/

def _RSYNC_ACL_TYPE_UNKNOWN : Nat := 0

def _RSYNC_ACL_TYPE_ACCESS : Nat := 1

def _RSYNC_ACL_TYPE_DEFAULT : Nat := 2

def _RSYNC_ACL_TYPE_NFS4 : Nat := 3

inductive RSYNC_ACL_TYPE_T where
  | RSYNC_ACL_TYPE_UNKNOWN
  | RSYNC_ACL_TYPE_ACCESS
  | RSYNC_ACL_TYPE_DEFAULT
  | RSYNC_ACL_TYPE_NFS4
deriving DecidableEq, Repr

def RSYNC_ACL_TYPE_T.val : RSYNC_ACL_TYPE_T → Nat
  | .RSYNC_ACL_TYPE_UNKNOWN => _RSYNC_ACL_TYPE_UNKNOWN
  | .RSYNC_ACL_TYPE_ACCESS => _RSYNC_ACL_TYPE_ACCESS
  | .RSYNC_ACL_TYPE_DEFAULT => _RSYNC_ACL_TYPE_DEFAULT
  | .RSYNC_ACL_TYPE_NFS4 => _RSYNC_ACL_TYPE_NFS4

/-! ### ACE permissions (lib/stdacls.h, lines 64-81) -/

def _RSYNC_ACE_PERM_X : Nat := 1 <<< 0

def _RSYNC_ACE_PERM_W : Nat := 1 <<< 1

def _RSYNC_ACE_PERM_R : Nat := 1 <<< 2

def RSYNC_ACE_PERM_POSIX_BITS : Nat := 7 <<< 0

def _RSYNC_ACE_PERM_AD : Nat := 1 <<< 3

def _RSYNC_ACE_PERM_REA : Nat := 1 <<< 4

def _RSYNC_ACE_PERM_WEA : Nat := 1 <<< 5

def _RSYNC_ACE_PERM_DC : Nat := 1 <<< 6

def _RSYNC_ACE_PERM_RA : Nat := 1 <<< 7

def _RSYNC_ACE_PERM_WA : Nat := 1 <<< 8

def _RSYNC_ACE_PERM_D : Nat := 1 <<< 9

def _RSYNC_ACE_PERM_RC : Nat := 1 <<< 10

def _RSYNC_ACE_PERM_WDAC : Nat := 1 <<< 11

def _RSYNC_ACE_PERM_WO : Nat := 1 <<< 12

def _RSYNC_ACE_PERM_S : Nat := 1 <<< 13

def RSYNC_ACE_PERM_NFS4_BITS : Nat := (1 <<< 14) - 1

/-! ### ACE tags, bits 14-16 (lib/stdacls.h, lines 84-92) -/

def _RSYNC_ACE_TAG_UNDEFINED : Nat := 0 <<< 14

def _RSYNC_ACE_TAG_USER_OBJ : Nat := 1 <<< 14

def _RSYNC_ACE_TAG_USER : Nat := 2 <<< 14

def _RSYNC_ACE_TAG_GROUP_OBJ : Nat := 3 <<< 14

def _RSYNC_ACE_TAG_GROUP : Nat := 4 <<< 14

def _RSYNC_ACE_TAG_OTHER : Nat := 5 <<< 14

def _RSYNC_ACE_TAG_MASK : Nat := 6 <<< 14

def _RSYNC_ACE_TAG_EVERYONE : Nat := 7 <<< 14

def RSYNC_ACE_TAG_BITS : Nat := 7 <<< 14

/-! ### ACE types, bits 17-18 (lib/stdacls.h, lines 95-99) -/

def _RSYNC_ACE_TYPE_ALLOW : Nat := 0 <<< 17

def _RSYNC_ACE_TYPE_DENY : Nat := 1 <<< 17

def _RSYNC_ACE_TYPE_AUDIT : Nat := 2 <<< 17

def _RSYNC_ACE_TYPE_ALARM : Nat := 3 <<< 17

def RSYNC_ACE_TYPE_BITS : Nat := 3 <<< 17

/-! ### ACE flags, bits 19-25 (lib/stdacls.h, lines 102-109).
`_RSYNC_ACE_FLAG_IONLY` embeds the header's Inherit-Only flag constant
(the header spells it with a two-letter suffix). -/

def _RSYNC_ACE_FLAG_OI : Nat := 1 <<< 19

def _RSYNC_ACE_FLAG_CI : Nat := 1 <<< 20

def _RSYNC_ACE_FLAG_NI : Nat := 1 <<< 21

def _RSYNC_ACE_FLAG_IONLY : Nat := 1 <<< 22

def _RSYNC_ACE_FLAG_I : Nat := 1 <<< 23

def _RSYNC_ACE_FLAG_SA : Nat := 1 <<< 24

def _RSYNC_ACE_FLAG_FA : Nat := 1 <<< 25

def RSYNC_ACE_FLAG_BITS : Nat := 127 <<< 19

/-- Top 6 bits are reserved for now, bits 26-31 (lib/stdacls.h, line 112). -/
def RSYNC_ACE_VALID_BITS : Nat := (1 <<< 26) - 1

/-! ### Enum duplicates of the preprocessor constants
(lib/stdacls.h, lines 116-159) -/

inductive RSYNC_ACE_PERM_T where
  | RSYNC_ACE_PERM_X
  | RSYNC_ACE_PERM_W
  | RSYNC_ACE_PERM_R
  | RSYNC_ACE_PERM_AD
  | RSYNC_ACE_PERM_REA
  | RSYNC_ACE_PERM_WEA
  | RSYNC_ACE_PERM_DC
  | RSYNC_ACE_PERM_RA
  | RSYNC_ACE_PERM_WA
  | RSYNC_ACE_PERM_D
  | RSYNC_ACE_PERM_RC
  | RSYNC_ACE_PERM_WDAC
  | RSYNC_ACE_PERM_WO
  | RSYNC_ACE_PERM_S
deriving DecidableEq, Repr

def RSYNC_ACE_PERM_T.val : RSYNC_ACE_PERM_T → Nat
  | .RSYNC_ACE_PERM_X => _RSYNC_ACE_PERM_X
  | .RSYNC_ACE_PERM_W => _RSYNC_ACE_PERM_W
  | .RSYNC_ACE_PERM_R => _RSYNC_ACE_PERM_R
  | .RSYNC_ACE_PERM_AD => _RSYNC_ACE_PERM_AD
  | .RSYNC_ACE_PERM_REA => _RSYNC_ACE_PERM_REA
  | .RSYNC_ACE_PERM_WEA => _RSYNC_ACE_PERM_WEA
  | .RSYNC_ACE_PERM_DC => _RSYNC_ACE_PERM_DC
  | .RSYNC_ACE_PERM_RA => _RSYNC_ACE_PERM_RA
  | .RSYNC_ACE_PERM_WA => _RSYNC_ACE_PERM_WA
  | .RSYNC_ACE_PERM_D => _RSYNC_ACE_PERM_D
  | .RSYNC_ACE_PERM_RC => _RSYNC_ACE_PERM_RC
  | .RSYNC_ACE_PERM_WDAC => _RSYNC_ACE_PERM_WDAC
  | .RSYNC_ACE_PERM_WO => _RSYNC_ACE_PERM_WO
  | .RSYNC_ACE_PERM_S => _RSYNC_ACE_PERM_S

inductive RSYNC_ACE_TAG_T where
  | RSYNC_ACE_TAG_UNDEFINED
  | RSYNC_ACE_TAG_USER_OBJ
  | RSYNC_ACE_TAG_USER
  | RSYNC_ACE_TAG_GROUP_OBJ
  | RSYNC_ACE_TAG_GROUP
  | RSYNC_ACE_TAG_OTHER
  | RSYNC_ACE_TAG_MASK
  | RSYNC_ACE_TAG_EVERYONE
deriving DecidableEq, Repr

def RSYNC_ACE_TAG_T.val : RSYNC_ACE_TAG_T → Nat
  | .RSYNC_ACE_TAG_UNDEFINED => _RSYNC_ACE_TAG_UNDEFINED
  | .RSYNC_ACE_TAG_USER_OBJ => _RSYNC_ACE_TAG_USER_OBJ
  | .RSYNC_ACE_TAG_USER => _RSYNC_ACE_TAG_USER
  | .RSYNC_ACE_TAG_GROUP_OBJ => _RSYNC_ACE_TAG_GROUP_OBJ
  | .RSYNC_ACE_TAG_GROUP => _RSYNC_ACE_TAG_GROUP
  | .RSYNC_ACE_TAG_OTHER => _RSYNC_ACE_TAG_OTHER
  | .RSYNC_ACE_TAG_MASK => _RSYNC_ACE_TAG_MASK
  | .RSYNC_ACE_TAG_EVERYONE => _RSYNC_ACE_TAG_EVERYONE

inductive RSYNC_ACE_TYPE_T where
  | RSYNC_ACE_TYPE_ALLOW
  | RSYNC_ACE_TYPE_DENY
  | RSYNC_ACE_TYPE_AUDIT
  | RSYNC_ACE_TYPE_ALARM
deriving DecidableEq, Repr

def RSYNC_ACE_TYPE_T.val : RSYNC_ACE_TYPE_T → Nat
  | .RSYNC_ACE_TYPE_ALLOW => _RSYNC_ACE_TYPE_ALLOW
  | .RSYNC_ACE_TYPE_DENY => _RSYNC_ACE_TYPE_DENY
  | .RSYNC_ACE_TYPE_AUDIT => _RSYNC_ACE_TYPE_AUDIT
  | .RSYNC_ACE_TYPE_ALARM => _RSYNC_ACE_TYPE_ALARM

inductive RSYNC_ACE_FLAG_T where
  | RSYNC_ACE_FLAG_OI
  | RSYNC_ACE_FLAG_CI
  | RSYNC_ACE_FLAG_NI
  | RSYNC_ACE_FLAG_IONLY
  | RSYNC_ACE_FLAG_I
  | RSYNC_ACE_FLAG_SA
  | RSYNC_ACE_FLAG_FA
deriving DecidableEq, Repr

def RSYNC_ACE_FLAG_T.val : RSYNC_ACE_FLAG_T → Nat
  | .RSYNC_ACE_FLAG_OI => _RSYNC_ACE_FLAG_OI
  | .RSYNC_ACE_FLAG_CI => _RSYNC_ACE_FLAG_CI
  | .RSYNC_ACE_FLAG_NI => _RSYNC_ACE_FLAG_NI
  | .RSYNC_ACE_FLAG_IONLY => _RSYNC_ACE_FLAG_IONLY
  | .RSYNC_ACE_FLAG_I => _RSYNC_ACE_FLAG_I
  | .RSYNC_ACE_FLAG_SA => _RSYNC_ACE_FLAG_SA
  | .RSYNC_ACE_FLAG_FA => _RSYNC_ACE_FLAG_FA

/-! ### Generic bit-mask helpers -/

/-- A value is fixed by and-ing with a mask exactly when every set bit of
the value is a set bit of the mask. -/
theorem and_mask_eq_self_iff (v m : Nat) :
    v &&& m = v ↔ ∀ i, v.testBit i = true → m.testBit i = true := by
  constructor
  · intro h i hv
    have h2 := congrArg (fun x => Nat.testBit x i) h
    simp only [Nat.testBit_and, hv, Bool.true_and] at h2
    exact h2
  · intro h
    apply Nat.eq_of_testBit_eq
    intro i
    rw [Nat.testBit_and]
    cases hv : v.testBit i with
    | false => simp
    | true => simp [h i hv]

theorem testBit_valid_bits (i : Nat) :
    RSYNC_ACE_VALID_BITS.testBit i = decide (i < 26) := by
  have h : RSYNC_ACE_VALID_BITS = 2 ^ 26 - 1 := by decide
  rw [h, Nat.testBit_two_pow_sub_one]

theorem testBit_perm_nfs4_bits (i : Nat) :
    RSYNC_ACE_PERM_NFS4_BITS.testBit i = decide (i < 14) := by
  have h : RSYNC_ACE_PERM_NFS4_BITS = 2 ^ 14 - 1 := by decide
  rw [h, Nat.testBit_two_pow_sub_one]

theorem testBit_perm_posix_bits (i : Nat) :
    RSYNC_ACE_PERM_POSIX_BITS.testBit i = decide (i < 3) := by
  have h : RSYNC_ACE_PERM_POSIX_BITS = 2 ^ 3 - 1 := by decide
  rw [h, Nat.testBit_two_pow_sub_one]

theorem testBit_tag_bits (i : Nat) :
    RSYNC_ACE_TAG_BITS.testBit i = decide (14 ≤ i ∧ i < 17) := by
  have h : RSYNC_ACE_TAG_BITS = (2 ^ 3 - 1) <<< 14 := by decide
  rw [h, Nat.testBit_shiftLeft, Nat.testBit_two_pow_sub_one, ← Bool.decide_and,
    decide_eq_decide]
  omega

theorem testBit_type_bits (i : Nat) :
    RSYNC_ACE_TYPE_BITS.testBit i = decide (17 ≤ i ∧ i < 19) := by
  have h : RSYNC_ACE_TYPE_BITS = (2 ^ 2 - 1) <<< 17 := by decide
  rw [h, Nat.testBit_shiftLeft, Nat.testBit_two_pow_sub_one, ← Bool.decide_and,
    decide_eq_decide]
  omega

theorem testBit_flag_bits (i : Nat) :
    RSYNC_ACE_FLAG_BITS.testBit i = decide (19 ≤ i ∧ i < 26) := by
  have h : RSYNC_ACE_FLAG_BITS = (2 ^ 7 - 1) <<< 19 := by decide
  rw [h, Nat.testBit_shiftLeft, Nat.testBit_two_pow_sub_one, ← Bool.decide_and,
    decide_eq_decide]
  omega

/-- C1: the canonical 32-bit ACE layout places permissions in bits 0-13,
the tag in the 3 bits at offset 14, the type in the 2 bits at offset 17
and the flags in the 7 bits at offset 19; the four field masks are
pairwise disjoint, their union is exactly the valid mask `(1<<26)-1`,
and bits 26-31 are zero in every value fixed by the valid mask. -/
theorem C1_canonical_layout :
    (∀ i, RSYNC_ACE_PERM_NFS4_BITS.testBit i = decide (i < 14))
    ∧ (∀ i, RSYNC_ACE_TAG_BITS.testBit i = decide (14 ≤ i ∧ i < 17))
    ∧ (∀ i, RSYNC_ACE_TYPE_BITS.testBit i = decide (17 ≤ i ∧ i < 19))
    ∧ (∀ i, RSYNC_ACE_FLAG_BITS.testBit i = decide (19 ≤ i ∧ i < 26))
    ∧ RSYNC_ACE_PERM_NFS4_BITS &&& RSYNC_ACE_TAG_BITS = 0
    ∧ RSYNC_ACE_PERM_NFS4_BITS &&& RSYNC_ACE_TYPE_BITS = 0
    ∧ RSYNC_ACE_PERM_NFS4_BITS &&& RSYNC_ACE_FLAG_BITS = 0
    ∧ RSYNC_ACE_TAG_BITS &&& RSYNC_ACE_TYPE_BITS = 0
    ∧ RSYNC_ACE_TAG_BITS &&& RSYNC_ACE_FLAG_BITS = 0
    ∧ RSYNC_ACE_TYPE_BITS &&& RSYNC_ACE_FLAG_BITS = 0
    ∧ (RSYNC_ACE_PERM_NFS4_BITS ||| RSYNC_ACE_TAG_BITS ||| RSYNC_ACE_TYPE_BITS
        ||| RSYNC_ACE_FLAG_BITS) = RSYNC_ACE_VALID_BITS
    ∧ RSYNC_ACE_VALID_BITS = (1 <<< 26) - 1
    ∧ (∀ v, v &&& RSYNC_ACE_VALID_BITS = v → ∀ i, 26 ≤ i → v.testBit i = false) := by
  refine ⟨testBit_perm_nfs4_bits, testBit_tag_bits, testBit_type_bits, testBit_flag_bits,
    by decide, by decide, by decide, by decide, by decide, by decide, by decide, rfl, ?_⟩
  intro v hv i hi
  have h := (and_mask_eq_self_iff v RSYNC_ACE_VALID_BITS).mp hv i
  cases hb : v.testBit i with
  | false => rfl
  | true =>
    have h2 := h hb
    rw [testBit_valid_bits] at h2
    simp at h2
    omega

/-- C1 witness: the reserved-bit consequence of `C1_canonical_layout`
instantiated at the concrete valid value `5` and bit `30`. -/
theorem C1_canonical_layout_witness :
    (5 : Nat) &&& RSYNC_ACE_VALID_BITS = 5 ∧ Nat.testBit 5 30 = false :=
  ⟨by decide, C1_canonical_layout.2.2.2.2.2.2.2.2.2.2.2.2 5 (by decide) 30 (by norm_num)⟩

/-! ### Canonical-value validation -/

/-- The eight defined tag enumerants of the canonical tag field. -/
def definedTagVals : List Nat :=
  [_RSYNC_ACE_TAG_UNDEFINED, _RSYNC_ACE_TAG_USER_OBJ, _RSYNC_ACE_TAG_USER,
   _RSYNC_ACE_TAG_GROUP_OBJ, _RSYNC_ACE_TAG_GROUP, _RSYNC_ACE_TAG_OTHER,
   _RSYNC_ACE_TAG_MASK, _RSYNC_ACE_TAG_EVERYONE]

/-- The four defined type enumerants of the canonical type field. -/
def definedTypeVals : List Nat :=
  [_RSYNC_ACE_TYPE_ALLOW, _RSYNC_ACE_TYPE_DENY, _RSYNC_ACE_TYPE_AUDIT,
   _RSYNC_ACE_TYPE_ALARM]

/-- Modelled from the spec: lib/stdacls.h declares only the canonical
constants, and the function `validate(value: canonical_u32) ->
Result<(), InvalidEncoding>` is missing from the sources; the spec says
it "fails if any reserved bit is set, or if decoding tag/type yields an
undefined enumerant".  `true` stands for Ok, `false` for the single
error `InvalidEncoding`. -/
def validate (v : Nat) : Bool :=
  (v &&& RSYNC_ACE_VALID_BITS == v)
    && decide ((v &&& RSYNC_ACE_TAG_BITS) ∈ definedTagVals)
    && decide ((v &&& RSYNC_ACE_TYPE_BITS) ∈ definedTypeVals)

/-- The tag field of any value is one of the eight values `k <<< 14`,
`k < 8`. -/
theorem and_tag_bits_eq (v : Nat) :
    v &&& RSYNC_ACE_TAG_BITS = ((v >>> 14) % 8) <<< 14 := by
  apply Nat.eq_of_testBit_eq
  intro i
  have h8 : (8 : Nat) = 2 ^ 3 := by norm_num
  have hT : RSYNC_ACE_TAG_BITS = (2 ^ 3 - 1) <<< 14 := by decide
  rw [hT, h8]
  simp only [Nat.testBit_and, Nat.testBit_shiftLeft, Nat.testBit_two_pow_sub_one,
    Nat.testBit_mod_two_pow, Nat.testBit_shiftRight]
  by_cases h14 : 14 ≤ i
  · have hge : (decide (i ≥ 14)) = true := by simpa using h14
    rw [hge, Nat.add_sub_cancel' h14]
    simp [Bool.and_comm]
  · have hge : (decide (i ≥ 14)) = false := by simpa using h14
    rw [hge]
    simp

/-- The type field of any value is one of the four values `k <<< 17`,
`k < 4`. -/
theorem and_type_bits_eq (v : Nat) :
    v &&& RSYNC_ACE_TYPE_BITS = ((v >>> 17) % 4) <<< 17 := by
  apply Nat.eq_of_testBit_eq
  intro i
  have h4 : (4 : Nat) = 2 ^ 2 := by norm_num
  have hT : RSYNC_ACE_TYPE_BITS = (2 ^ 2 - 1) <<< 17 := by decide
  rw [hT, h4]
  simp only [Nat.testBit_and, Nat.testBit_shiftLeft, Nat.testBit_two_pow_sub_one,
    Nat.testBit_mod_two_pow, Nat.testBit_shiftRight]
  by_cases h17 : 17 ≤ i
  · have hge : (decide (i ≥ 17)) = true := by simpa using h17
    rw [hge, Nat.add_sub_cancel' h17]
    simp [Bool.and_comm]
  · have hge : (decide (i ≥ 17)) = false := by simpa using h17
    rw [hge]
    simp

/-- The tag field of every 32-bit value decodes to a defined enumerant. -/
theorem tag_field_defined (v : Nat) : (v &&& RSYNC_ACE_TAG_BITS) ∈ definedTagVals := by
  rw [and_tag_bits_eq]
  have hk : (v >>> 14) % 8 < 8 := Nat.mod_lt _ (by norm_num)
  have hall : ∀ k, k < 8 → (k <<< 14) ∈ definedTagVals := by decide
  exact hall _ hk

/-- The type field of every 32-bit value decodes to a defined enumerant. -/
theorem type_field_defined (v : Nat) : (v &&& RSYNC_ACE_TYPE_BITS) ∈ definedTypeVals := by
  rw [and_type_bits_eq]
  have hk : (v >>> 17) % 4 < 4 := Nat.mod_lt _ (by norm_num)
  have hall : ∀ k, k < 4 → (k <<< 17) ∈ definedTypeVals := by decide
  exact hall _ hk

/-- Being fixed by the valid mask is the same as having all bits at
position 26 and above clear. -/
theorem and_valid_bits_eq_self_iff (v : Nat) :
    v &&& RSYNC_ACE_VALID_BITS = v ↔ ∀ i, 26 ≤ i → v.testBit i = false := by
  rw [and_mask_eq_self_iff]
  constructor
  · intro h i hi
    cases hb : v.testBit i with
    | false => rfl
    | true =>
      have h2 := h i hb
      rw [testBit_valid_bits] at h2
      simp at h2
      omega
  · intro h i hv
    rw [testBit_valid_bits]
    by_cases hi : i < 26
    · simpa using hi
    · rw [h i (by omega)] at hv
      exact absurd hv (by simp)

/-- C2: `validate v` reports `InvalidEncoding` exactly when some bit at
position 26 or above is set, or the 3-bit tag field decodes to a value
outside the eight defined tag enumerants, or the 2-bit type field
decodes to a value outside the four defined type enumerants; every
other value is accepted.  (Stated for every `Nat`, which covers every
32-bit value.) -/
theorem C2_validate_invalid_iff (v : Nat) :
    validate v = false ↔
      (∃ i, 26 ≤ i ∧ v.testBit i = true)
      ∨ (v &&& RSYNC_ACE_TAG_BITS) ∉ definedTagVals
      ∨ (v &&& RSYNC_ACE_TYPE_BITS) ∉ definedTypeVals := by
  have htag := tag_field_defined v
  have htype := type_field_defined v
  rw [show (validate v = false) ↔ ¬(validate v = true) by simp]
  simp only [validate, Bool.and_eq_true, beq_iff_eq, decide_eq_true_eq]
  constructor
  · intro h
    left
    by_contra hnone
    push_neg at hnone
    apply h
    refine ⟨⟨?_, htag⟩, htype⟩
    rw [and_valid_bits_eq_self_iff]
    intro i hi
    cases hb : v.testBit i with
    | false => rfl
    | true => exact absurd hb (by simpa using hnone i hi)
  · rintro (⟨i, hi, hb⟩ | h | h)
    · rintro ⟨⟨hmask, -⟩, -⟩
      rw [and_valid_bits_eq_self_iff] at hmask
      rw [hmask i hi] at hb
      exact Bool.false_ne_true hb
    · exact absurd htag h
    · exact absurd htype h

/-- C10: every 3-bit tag value (all eight of `0..7`) and every 2-bit
type value (all four of `0..3`) is a defined enumerant, so the
undefined-tag/undefined-type branch of `validate` never fires and
`validate` reduces to the reserved-bits check alone. -/
theorem C10_validate_reduces_to_reserved_check (v : Nat) :
    (v &&& RSYNC_ACE_TAG_BITS) ∈ definedTagVals
    ∧ (v &&& RSYNC_ACE_TYPE_BITS) ∈ definedTypeVals
    ∧ (validate v = true ↔ v &&& RSYNC_ACE_VALID_BITS = v) := by
  refine ⟨tag_field_defined v, type_field_defined v, ?_⟩
  simp only [validate, Bool.and_eq_true, beq_iff_eq, decide_eq_true_eq]
  exact ⟨fun h => h.1.1, fun h => ⟨⟨h, tag_field_defined v⟩, type_field_defined v⟩⟩

/-! ### Canonical ACE values and brand-aware validation -/

/-- One canonical Access Control Entry, with the fields of the spec's
data model.  `permissions` is a bit set within the 14 permission bits,
`flags` a bit set within the canonical flag positions (bits 19-25), and
`principal` the externally supplied identifier carried alongside the
bit encoding. -/
structure ACE where
  brand : RSYNC_ACL_BRAND_T
  permissions : Nat
  tag : RSYNC_ACE_TAG_T
  type : RSYNC_ACE_TYPE_T
  flags : Nat
  principal : Nat
deriving DecidableEq, Repr

/-- Modelled from the spec: `validate_for_brand(ace, brand) ->
Result<(), BrandMismatch>` is missing from the sources.  The spec: it
"fails if `ace.permissions` sets any bit outside the brand's allowed
permission mask (POSIX brand: only the low 3 bits; NFS4 brand: all 14),
or if `tag`/`type`/`flags` use NFS4-only values while `brand == Posix`",
and it centrally enforces the cross-field rule "`Mask` and `Other` tags
are only legal when `brand == Posix`; `Everyone` and `type != Allow`
are only legal when `brand == Nfs4`" (flags are NFS4-only, POSIX
entries always carry an empty flag set).  `true` stands for Ok,
`false` for the single error `BrandMismatch`. -/
def validate_for_brand (ace : ACE) (brand : RSYNC_ACL_BRAND_T) : Bool :=
  match brand with
  | .RSYNC_ACL_BRAND_UNKNOWN => false
  | .RSYNC_ACL_BRAND_POSIX =>
      (ace.permissions &&& RSYNC_ACE_PERM_POSIX_BITS == ace.permissions)
        && !(ace.tag == .RSYNC_ACE_TAG_EVERYONE)
        && (ace.type == .RSYNC_ACE_TYPE_ALLOW)
        && (ace.flags == 0)
  | .RSYNC_ACL_BRAND_NFS4 =>
      (ace.permissions &&& RSYNC_ACE_PERM_NFS4_BITS == ace.permissions)
        && !(ace.tag == .RSYNC_ACE_TAG_OTHER)
        && !(ace.tag == .RSYNC_ACE_TAG_MASK)
        && (ace.flags &&& RSYNC_ACE_FLAG_BITS == ace.flags)

/-- C5: under the POSIX brand any ace whose permission set contains a
bit above bit 2 is rejected with `BrandMismatch`; under the NFS4 brand
the permission check never rejects a permission set lying within the
full 14-bit mask (an NFS4-legal tag and flag set stay accepted for
every such permission set). -/
theorem C5_brand_permission_masks :
    (∀ ace : ACE, (∃ i, 3 ≤ i ∧ ace.permissions.testBit i = true) →
      validate_for_brand ace .RSYNC_ACL_BRAND_POSIX = false)
    ∧ (∀ ace : ACE,
        ace.permissions &&& RSYNC_ACE_PERM_NFS4_BITS = ace.permissions →
        ace.tag ≠ .RSYNC_ACE_TAG_OTHER →
        ace.tag ≠ .RSYNC_ACE_TAG_MASK →
        ace.flags &&& RSYNC_ACE_FLAG_BITS = ace.flags →
        validate_for_brand ace .RSYNC_ACL_BRAND_NFS4 = true) := by
  constructor
  · rintro ace ⟨i, hi, hb⟩
    have hmask : ace.permissions &&& RSYNC_ACE_PERM_POSIX_BITS ≠ ace.permissions := by
      intro h
      have h2 := (and_mask_eq_self_iff _ _).mp h i hb
      rw [testBit_perm_posix_bits] at h2
      simp at h2
      omega
    simp [validate_for_brand, hmask]
  · intro ace hperm htag1 htag2 hflag
    simp [validate_for_brand, hperm, htag1, htag2, hflag]

/-- C5 witness: `C5_brand_permission_masks` applied to the concrete ace
with permission set `8 = 1<<3` (POSIX rejection) and to the concrete
NFS4 ace carrying the full 14-bit permission mask (NFS4 acceptance). -/
theorem C5_brand_permission_masks_witness :
    ((∃ i, 3 ≤ i ∧ (8 : Nat).testBit i = true)
      ∧ validate_for_brand
          ⟨.RSYNC_ACL_BRAND_POSIX, 8, .RSYNC_ACE_TAG_USER_OBJ,
            .RSYNC_ACE_TYPE_ALLOW, 0, 0⟩ .RSYNC_ACL_BRAND_POSIX = false)
    ∧ validate_for_brand
        ⟨.RSYNC_ACL_BRAND_NFS4, RSYNC_ACE_PERM_NFS4_BITS, .RSYNC_ACE_TAG_EVERYONE,
          .RSYNC_ACE_TYPE_DENY, _RSYNC_ACE_FLAG_CI, 0⟩ .RSYNC_ACL_BRAND_NFS4 = true :=
  ⟨⟨⟨3, by norm_num, by decide⟩,
    C5_brand_permission_masks.1 _ ⟨3, by norm_num, by decide⟩⟩,
    C5_brand_permission_masks.2 _ (by decide) (by decide) (by decide) (by decide)⟩

/-- C6: the tag/type cross-field rule of `validate_for_brand`: an
accepted ace can carry the `Mask` or `Other` tag only under the POSIX
brand, and can carry the `Everyone` tag, a type other than `Allow`, or
a nonzero flag set only under the NFS4 brand; the ace with tag
`Everyone`, type `Deny` and flags `ContainerInherit` is accepted under
NFS4 and rejected under POSIX. -/
theorem C6_tag_type_cross_field :
    (∀ (ace : ACE) (b : RSYNC_ACL_BRAND_T), validate_for_brand ace b = true →
      ((ace.tag = .RSYNC_ACE_TAG_MASK ∨ ace.tag = .RSYNC_ACE_TAG_OTHER) →
          b = .RSYNC_ACL_BRAND_POSIX)
      ∧ (ace.tag = .RSYNC_ACE_TAG_EVERYONE → b = .RSYNC_ACL_BRAND_NFS4)
      ∧ (ace.type ≠ .RSYNC_ACE_TYPE_ALLOW → b = .RSYNC_ACL_BRAND_NFS4)
      ∧ (ace.flags ≠ 0 → b = .RSYNC_ACL_BRAND_NFS4))
    ∧ validate_for_brand
        ⟨.RSYNC_ACL_BRAND_NFS4, 0, .RSYNC_ACE_TAG_EVERYONE, .RSYNC_ACE_TYPE_DENY,
          _RSYNC_ACE_FLAG_CI, 0⟩ .RSYNC_ACL_BRAND_NFS4 = true
    ∧ validate_for_brand
        ⟨.RSYNC_ACL_BRAND_NFS4, 0, .RSYNC_ACE_TAG_EVERYONE, .RSYNC_ACE_TYPE_DENY,
          _RSYNC_ACE_FLAG_CI, 0⟩ .RSYNC_ACL_BRAND_POSIX = false := by
  refine ⟨?_, by decide, by decide⟩
  intro ace b h
  cases b with
  | RSYNC_ACL_BRAND_UNKNOWN => exact absurd h (by simp [validate_for_brand])
  | RSYNC_ACL_BRAND_POSIX =>
    simp only [validate_for_brand, Bool.and_eq_true, Bool.not_eq_eq_eq_not,
      Bool.not_true, beq_iff_eq, beq_eq_false_iff_ne] at h
    refine ⟨fun _ => rfl, fun htag => absurd htag h.1.1.2, ?_, ?_⟩
    · intro hty
      exact absurd h.1.2 hty
    · intro hfl
      exact absurd h.2 hfl
  | RSYNC_ACL_BRAND_NFS4 =>
    simp only [validate_for_brand, Bool.and_eq_true, Bool.not_eq_eq_eq_not,
      Bool.not_true, beq_iff_eq, beq_eq_false_iff_ne] at h
    refine ⟨?_, fun _ => rfl, fun _ => rfl, fun _ => rfl⟩
    rintro (htag | htag)
    · exact absurd htag h.1.2
    · exact absurd htag h.1.1.2

/-- C6 witness: `C6_tag_type_cross_field` applied to the accepted
NFS4 scenario ace, recovering that its brand must be NFS4 from each of
the three NFS4-only field values it carries. -/
theorem C6_tag_type_cross_field_witness :
    validate_for_brand
        ⟨.RSYNC_ACL_BRAND_NFS4, 0, .RSYNC_ACE_TAG_EVERYONE, .RSYNC_ACE_TYPE_DENY,
          _RSYNC_ACE_FLAG_CI, 0⟩ .RSYNC_ACL_BRAND_NFS4 = true
    ∧ RSYNC_ACL_BRAND_T.RSYNC_ACL_BRAND_NFS4 = .RSYNC_ACL_BRAND_NFS4 :=
  ⟨by decide,
    (C6_tag_type_cross_field.1
      ⟨.RSYNC_ACL_BRAND_NFS4, 0, .RSYNC_ACE_TAG_EVERYONE, .RSYNC_ACE_TYPE_DENY,
        _RSYNC_ACE_FLAG_CI, 0⟩ .RSYNC_ACL_BRAND_NFS4 (by decide)).2.1 rfl⟩

/-! ### Translation tables (lib/stdacls.h, lines 161-166) -/

/-- One translation-table entry, pairing one canonical (`rsync`) bit
value with one native (`impl`) bit value. -/
structure RSYNC_ACEMAP_T where
  rsync : Nat
  impl : Nat
deriving DecidableEq, Repr

/-- Find the table entry whose native bit value is `b`. -/
def lookupImpl (table : List RSYNC_ACEMAP_T) (b : Nat) : Option RSYNC_ACEMAP_T :=
  table.find? (fun e => e.impl == b)

/-- Find the table entry whose canonical bit value is `b`. -/
def lookupRsync (table : List RSYNC_ACEMAP_T) (b : Nat) : Option RSYNC_ACEMAP_T :=
  table.find? (fun e => e.rsync == b)

/-- Modelled from the spec: bit-by-bit worker of
`encode_native_to_canonical(table, native_bits)`; processes the bit
positions below `k`.  "For every set bit in `native_bits`, if the table
has a matching `native_bit` entry, OR the corresponding `canonical_bit`
into the result; otherwise OR that bit into `unmapped`." -/
def encodeBitsAux (table : List RSYNC_ACEMAP_T) (native : Nat) : Nat → Nat × Nat
  | 0 => (0, 0)
  | k + 1 =>
    let p := encodeBitsAux table native k
    if native.testBit k then
      match lookupImpl table (2 ^ k) with
      | some e => (p.1 ||| e.rsync, p.2)
      | none => (p.1, p.2 ||| 2 ^ k)
    else p

/-- Modelled from the spec: `encode_native_to_canonical(table,
native_bits: u32) -> (canonical_bits: u32, unmapped: u32)`, missing
from the sources; processes the 32 bit positions of a `u32`. -/
def encode_native_to_canonical (table : List RSYNC_ACEMAP_T) (native : Nat) : Nat × Nat :=
  encodeBitsAux table native 32

/-- Modelled from the spec: bit-by-bit worker of
`decode_canonical_to_native`, the mirror of `encodeBitsAux`. -/
def decodeBitsAux (table : List RSYNC_ACEMAP_T) (canonical : Nat) : Nat → Nat × Nat
  | 0 => (0, 0)
  | k + 1 =>
    let p := decodeBitsAux table canonical k
    if canonical.testBit k then
      match lookupRsync table (2 ^ k) with
      | some e => (p.1 ||| e.impl, p.2)
      | none => (p.1, p.2 ||| 2 ^ k)
    else p

/-- Modelled from the spec: `decode_canonical_to_native(table,
canonical_bits: u32) -> (native_bits: u32, unmapped: u32)`, "the mirror
operation, same unmapped-bit contract". -/
def decode_canonical_to_native (table : List RSYNC_ACEMAP_T) (canonical : Nat) : Nat × Nat :=
  decodeBitsAux table canonical 32

/-- Swap the two sides of a table entry. -/
def flipMap (e : RSYNC_ACEMAP_T) : RSYNC_ACEMAP_T := ⟨e.impl, e.rsync⟩

/-- An entry pairs exactly one canonical bit with exactly one native
bit (both single bits of a `u32`). -/
def IsBitEntry (e : RSYNC_ACEMAP_T) : Prop :=
  (∃ i, i < 32 ∧ e.rsync = 2 ^ i) ∧ (∃ j, j < 32 ∧ e.impl = 2 ^ j)

/-- A well-formed table: single-bit entries, no canonical bit repeated,
no native bit repeated (the partial-bijection invariant the spec
imposes at construction time). -/
def WFTable (t : List RSYNC_ACEMAP_T) : Prop :=
  (∀ e ∈ t, IsBitEntry e)
  ∧ (t.map RSYNC_ACEMAP_T.rsync).Nodup
  ∧ (t.map RSYNC_ACEMAP_T.impl).Nodup

/-- Every set bit of `native` appears as a native bit of the table. -/
def CoversNative (t : List RSYNC_ACEMAP_T) (native : Nat) : Prop :=
  ∀ i, native.testBit i = true → ∃ e ∈ t, e.impl = 2 ^ i

/-- Every set bit of `canonical` appears as a canonical bit of the
table. -/
def CoversCanonical (t : List RSYNC_ACEMAP_T) (canonical : Nat) : Prop :=
  ∀ j, canonical.testBit j = true → ∃ e ∈ t, e.rsync = 2 ^ j

theorem flipMap_flipMap (e : RSYNC_ACEMAP_T) : flipMap (flipMap e) = e := rfl

theorem map_flipMap_flipMap (t : List RSYNC_ACEMAP_T) :
    (t.map flipMap).map flipMap = t := by
  rw [List.map_map]
  have h : flipMap ∘ flipMap = id := funext fun e => rfl
  rw [h, List.map_id]

theorem lookupImpl_map_flipMap (t : List RSYNC_ACEMAP_T) (b : Nat) :
    lookupImpl (t.map flipMap) b = (lookupRsync t b).map flipMap := by
  unfold lookupImpl lookupRsync
  rw [List.find?_map]
  rfl

theorem lookupRsync_map_flipMap (t : List RSYNC_ACEMAP_T) (b : Nat) :
    lookupRsync (t.map flipMap) b = (lookupImpl t b).map flipMap := by
  unfold lookupImpl lookupRsync
  rw [List.find?_map]
  rfl

theorem decodeBitsAux_eq_flip (t : List RSYNC_ACEMAP_T) (c k : Nat) :
    decodeBitsAux t c k = encodeBitsAux (t.map flipMap) c k := by
  induction k with
  | zero => rfl
  | succ k ih =>
    simp only [decodeBitsAux, encodeBitsAux, ih, lookupImpl_map_flipMap]
    cases lookupRsync t (2 ^ k) with
    | none => rfl
    | some e => rfl

theorem encodeBitsAux_eq_flip (t : List RSYNC_ACEMAP_T) (n k : Nat) :
    encodeBitsAux t n k = decodeBitsAux (t.map flipMap) n k := by
  rw [decodeBitsAux_eq_flip, map_flipMap_flipMap]

theorem wfTable_map_flipMap {t : List RSYNC_ACEMAP_T} (h : WFTable t) :
    WFTable (t.map flipMap) := by
  obtain ⟨hbits, hr, hi⟩ := h
  refine ⟨?_, ?_, ?_⟩
  · intro e he
    rw [List.mem_map] at he
    obtain ⟨e0, he0, rfl⟩ := he
    exact ⟨(hbits e0 he0).2, (hbits e0 he0).1⟩
  · rw [List.map_map]
    exact hi
  · rw [List.map_map]
    exact hr

theorem coversCanonical_iff_flip (t : List RSYNC_ACEMAP_T) (c : Nat) :
    CoversCanonical t c ↔ CoversNative (t.map flipMap) c := by
  unfold CoversCanonical CoversNative
  constructor
  · intro h j hj
    obtain ⟨e, he, hrs⟩ := h j hj
    exact ⟨flipMap e, List.mem_map_of_mem _ he, hrs⟩
  · intro h j hj
    obtain ⟨e, he, him⟩ := h j hj
    rw [List.mem_map] at he
    obtain ⟨e0, he0, rfl⟩ := he
    exact ⟨e0, he0, him⟩

theorem coversNative_iff_flip (t : List RSYNC_ACEMAP_T) (n : Nat) :
    CoversNative t n ↔ CoversCanonical (t.map flipMap) n := by
  rw [coversCanonical_iff_flip, map_flipMap_flipMap]

/-! ### Bit-level characterisation of encode/decode -/

theorem encodeBitsAux_snd_eq_zero {t : List RSYNC_ACEMAP_T} {native : Nat} (k : Nat)
    (h : ∀ i, i < k → native.testBit i = true → (lookupImpl t (2 ^ i)).isSome = true) :
    (encodeBitsAux t native k).2 = 0 := by
  induction k with
  | zero => rfl
  | succ k ih =>
    have ih2 := ih (fun i hi hb => h i (by omega) hb)
    simp only [encodeBitsAux]
    cases hn : native.testBit k with
    | false => simpa [hn] using ih2
    | true =>
      have hs := h k (by omega) hn
      cases hl : lookupImpl t (2 ^ k) with
      | none => rw [hl] at hs; exact absurd hs (by simp)
      | some e => simpa [hn, hl] using ih2

theorem encodeBitsAux_fst_testBit (t : List RSYNC_ACEMAP_T) (native k j : Nat) :
    (encodeBitsAux t native k).1.testBit j = true ↔
      ∃ i, i < k ∧ native.testBit i = true
        ∧ ∃ e, lookupImpl t (2 ^ i) = some e ∧ e.rsync.testBit j = true := by
  induction k with
  | zero =>
    simp only [encodeBitsAux, Nat.zero_testBit]
    constructor
    · intro h; exact absurd h (by simp)
    · rintro ⟨i, hi, -⟩; omega
  | succ k ih =>
    simp only [encodeBitsAux]
    by_cases hn : native.testBit k = true
    · rw [if_pos hn]
      cases hl : lookupImpl t (2 ^ k) with
      | some e =>
        rw [Nat.testBit_or, Bool.or_eq_true, ih]
        constructor
        · rintro (⟨i, hi, rest⟩ | hbj)
          · exact ⟨i, by omega, rest⟩
          · exact ⟨k, by omega, hn, e, hl, hbj⟩
        · rintro ⟨i, hi, hb, e2, hl2, hbj⟩
          rcases Nat.lt_succ_iff_lt_or_eq.mp hi with h | rfl
          · exact Or.inl ⟨i, h, hb, e2, hl2, hbj⟩
          · rw [hl] at hl2
            cases Option.some.inj hl2
            exact Or.inr hbj
      | none =>
        rw [ih]
        constructor
        · rintro ⟨i, hi, rest⟩; exact ⟨i, by omega, rest⟩
        · rintro ⟨i, hi, hb, e2, hl2, hbj⟩
          rcases Nat.lt_succ_iff_lt_or_eq.mp hi with h | rfl
          · exact ⟨i, h, hb, e2, hl2, hbj⟩
          · rw [hl] at hl2; exact absurd hl2 (by simp)
    · rw [if_neg hn]
      rw [ih]
      constructor
      · rintro ⟨i, hi, rest⟩; exact ⟨i, by omega, rest⟩
      · rintro ⟨i, hi, hb, rest⟩
        refine ⟨i, ?_, hb, rest⟩
        rcases Nat.lt_succ_iff_lt_or_eq.mp hi with h | rfl
        · exact h
        · exact absurd hb hn

theorem lookupImpl_eq_some {t : List RSYNC_ACEMAP_T} {b : Nat} {e : RSYNC_ACEMAP_T}
    (h : lookupImpl t b = some e) : e ∈ t ∧ e.impl = b := by
  refine ⟨List.mem_of_find?_eq_some h, ?_⟩
  have h2 := List.find?_some h
  simpa using h2

theorem lookupRsync_eq_some {t : List RSYNC_ACEMAP_T} {b : Nat} {e : RSYNC_ACEMAP_T}
    (h : lookupRsync t b = some e) : e ∈ t ∧ e.rsync = b := by
  refine ⟨List.mem_of_find?_eq_some h, ?_⟩
  have h2 := List.find?_some h
  simpa using h2

theorem lookupImpl_exists {t : List RSYNC_ACEMAP_T} {b : Nat}
    (h : ∃ e ∈ t, e.impl = b) :
    ∃ e, lookupImpl t b = some e ∧ e ∈ t ∧ e.impl = b := by
  have hs : (lookupImpl t b).isSome = true := by
    rw [lookupImpl, List.find?_isSome]
    obtain ⟨e, he, hb⟩ := h
    exact ⟨e, he, by simp [hb]⟩
  obtain ⟨e, he⟩ := Option.isSome_iff_exists.mp hs
  exact ⟨e, he, lookupImpl_eq_some he⟩

theorem lookupRsync_exists {t : List RSYNC_ACEMAP_T} {b : Nat}
    (h : ∃ e ∈ t, e.rsync = b) :
    ∃ e, lookupRsync t b = some e ∧ e ∈ t ∧ e.rsync = b := by
  have hs : (lookupRsync t b).isSome = true := by
    rw [lookupRsync, List.find?_isSome]
    obtain ⟨e, he, hb⟩ := h
    exact ⟨e, he, by simp [hb]⟩
  obtain ⟨e, he⟩ := Option.isSome_iff_exists.mp hs
  exact ⟨e, he, lookupRsync_eq_some he⟩

theorem decodeBitsAux_fst_testBit (t : List RSYNC_ACEMAP_T) (c k i : Nat) :
    (decodeBitsAux t c k).1.testBit i = true ↔
      ∃ j, j < k ∧ c.testBit j = true
        ∧ ∃ e, lookupRsync t (2 ^ j) = some e ∧ e.impl.testBit i = true := by
  rw [decodeBitsAux_eq_flip, encodeBitsAux_fst_testBit]
  constructor
  · rintro ⟨j, hj, hcj, e, hl, hb⟩
    rw [lookupImpl_map_flipMap] at hl
    obtain ⟨a, ha, rfl⟩ := Option.map_eq_some'.mp hl
    exact ⟨j, hj, hcj, a, ha, hb⟩
  · rintro ⟨j, hj, hcj, e, hl, hb⟩
    refine ⟨j, hj, hcj, flipMap e, ?_, hb⟩
    rw [lookupImpl_map_flipMap, hl]
    rfl

theorem eq_of_two_pow_testBit {m j : Nat} (h : (2 ^ m).testBit j = true) : m = j := by
  rw [Nat.testBit_two_pow] at h
  exact of_decide_eq_true h

/-- Round trip, native-to-canonical-to-native direction: on a
well-formed table, a 32-bit native pattern fully covered by the table
encodes with zero unmapped residue and decodes back to itself with zero
unmapped residue. -/
theorem roundtrip_encode_decode {t : List RSYNC_ACEMAP_T} {native : Nat}
    (hwf : WFTable t) (h32 : native < 2 ^ 32) (hcov : CoversNative t native) :
    (encode_native_to_canonical t native).2 = 0
    ∧ decode_canonical_to_native t (encode_native_to_canonical t native).1
        = (native, 0) := by
  obtain ⟨hbits, hndr, hndi⟩ := hwf
  have hc := encodeBitsAux_fst_testBit t native 32
  have hsnd : (encodeBitsAux t native 32).2 = 0 := by
    apply encodeBitsAux_snd_eq_zero
    intro i _ hb
    rw [lookupImpl, List.find?_isSome]
    obtain ⟨e, he, hei⟩ := hcov i hb
    exact ⟨e, he, by simp [hei]⟩
  have hlow : ∀ i, native.testBit i = true → i < 32 := by
    intro i hb
    by_contra hge
    have h2 : native < 2 ^ i :=
      Nat.lt_of_lt_of_le h32 (Nat.pow_le_pow_right (by norm_num) (by omega))
    rw [Nat.testBit_lt_two_pow h2] at hb
    exact Bool.false_ne_true hb
  -- every set bit of the encoded value is a canonical bit of the table
  have hccov : ∀ j, (encodeBitsAux t native 32).1.testBit j = true →
      ∃ e ∈ t, e.rsync = 2 ^ j := by
    intro j hj
    obtain ⟨i, _, _, e, hl, hrsj⟩ := (hc j).mp hj
    obtain ⟨hmem, _⟩ := lookupImpl_eq_some hl
    obtain ⟨⟨m, _, hrs⟩, -⟩ := hbits e hmem
    have hmj : m = j := by
      apply eq_of_two_pow_testBit
      rw [← hrs]
      exact hrsj
    exact ⟨e, hmem, by rw [hrs, hmj]⟩
  have hdecsnd : (decodeBitsAux t (encodeBitsAux t native 32).1 32).2 = 0 := by
    rw [decodeBitsAux_eq_flip]
    apply encodeBitsAux_snd_eq_zero
    intro j _ hj
    rw [lookupImpl_map_flipMap]
    obtain ⟨e, he, hrs⟩ := hccov j hj
    obtain ⟨e2, hl2, -⟩ := lookupRsync_exists ⟨e, he, hrs⟩
    rw [hl2]
    rfl
  have hdecfst : (decodeBitsAux t (encodeBitsAux t native 32).1 32).1 = native := by
    apply Nat.eq_of_testBit_eq
    intro i
    have hd := decodeBitsAux_fst_testBit t (encodeBitsAux t native 32).1 32 i
    cases hb : native.testBit i with
    | true =>
      apply hd.mpr
      have hi32 : i < 32 := hlow i hb
      obtain ⟨e, hl, hmem, himpl⟩ := lookupImpl_exists (hcov i hb)
      obtain ⟨⟨m, hm32, hrs⟩, -⟩ := hbits e hmem
      have hcm : (encodeBitsAux t native 32).1.testBit m = true :=
        (hc m).mpr ⟨i, hi32, hb, e, hl, by rw [hrs]; exact Nat.testBit_two_pow_self⟩
      obtain ⟨e2, hl2, hmem2, hrs2⟩ := lookupRsync_exists ⟨e, hmem, hrs⟩
      have he2 : e2 = e := List.inj_on_of_nodup_map hndr hmem2 hmem (by rw [hrs2, hrs])
      refine ⟨m, hm32, hcm, e2, hl2, ?_⟩
      rw [he2, himpl]
      exact Nat.testBit_two_pow_self
    | false =>
      cases hdb : (decodeBitsAux t (encodeBitsAux t native 32).1 32).1.testBit i with
      | false => rfl
      | true =>
        exfalso
        obtain ⟨j, _, hcj, e2, hl2, hb2⟩ := hd.mp hdb
        obtain ⟨i0, _, hbi0, e1, hl1, hrsj⟩ := (hc j).mp hcj
        obtain ⟨hmem1, himpl1⟩ := lookupImpl_eq_some hl1
        obtain ⟨⟨m, _, hrs1⟩, -⟩ := hbits e1 hmem1
        have hmj : m = j := by
          apply eq_of_two_pow_testBit
          rw [← hrs1]
          exact hrsj
        obtain ⟨hmem2, hrs2⟩ := lookupRsync_eq_some hl2
        have he12 : e2 = e1 :=
          List.inj_on_of_nodup_map hndr hmem2 hmem1 (by rw [hrs2, hrs1, hmj])
        have hii0 : i0 = i := by
          apply eq_of_two_pow_testBit
          rw [← himpl1, ← he12]
          exact hb2
        rw [hii0] at hbi0
        rw [hbi0] at hb
        exact absurd hb (by simp)
  refine ⟨hsnd, ?_⟩
  show decodeBitsAux t (encodeBitsAux t native 32).1 32 = (native, 0)
  cases hdec : decodeBitsAux t (encodeBitsAux t native 32).1 32 with
  | mk a b =>
    rw [hdec] at hdecfst hdecsnd
    simp at hdecfst hdecsnd
    rw [hdecfst, hdecsnd]

/-- The POSIX-only identity table `{(bit0,bit0),(bit1,bit1),(bit2,bit2)}`
of the spec's round-trip scenario. -/
def posixIdTable : List RSYNC_ACEMAP_T :=
  [⟨_RSYNC_ACE_PERM_X, _RSYNC_ACE_PERM_X⟩,
   ⟨_RSYNC_ACE_PERM_W, _RSYNC_ACE_PERM_W⟩,
   ⟨_RSYNC_ACE_PERM_R, _RSYNC_ACE_PERM_R⟩]

theorem wf_posixIdTable : WFTable posixIdTable := by
  refine ⟨?_, by decide, by decide⟩
  intro e he
  simp only [posixIdTable, List.mem_cons, List.not_mem_nil, or_false] at he
  rcases he with rfl | rfl | rfl
  · exact ⟨⟨0, by norm_num, by decide⟩, ⟨0, by norm_num, by decide⟩⟩
  · exact ⟨⟨1, by norm_num, by decide⟩, ⟨1, by norm_num, by decide⟩⟩
  · exact ⟨⟨2, by norm_num, by decide⟩, ⟨2, by norm_num, by decide⟩⟩

theorem covers_posixIdTable_seven : CoversNative posixIdTable 7 := by
  intro i hb
  have h3 : i < 3 := by
    by_contra hge
    have h7 : (7 : Nat) < 2 ^ i :=
      lt_of_lt_of_le (show (7 : Nat) < 2 ^ 3 by norm_num)
        (Nat.pow_le_pow_right (by norm_num) (by omega))
    rw [Nat.testBit_lt_two_pow h7] at hb
    exact Bool.false_ne_true hb
  interval_cases i
  · exact ⟨⟨_RSYNC_ACE_PERM_X, _RSYNC_ACE_PERM_X⟩, by simp [posixIdTable], by decide⟩
  · exact ⟨⟨_RSYNC_ACE_PERM_W, _RSYNC_ACE_PERM_W⟩, by simp [posixIdTable], by decide⟩
  · exact ⟨⟨_RSYNC_ACE_PERM_R, _RSYNC_ACE_PERM_R⟩, by simp [posixIdTable], by decide⟩

/-- C3: on every well-formed translation table, a 32-bit native pattern
whose set bits are all native bits of the table encodes and then
decodes back to itself with zero unmapped residue, and symmetrically in
the canonical-to-native-to-canonical direction; in particular native
POSIX bits `0b111` under the identity table encode to canonical
permissions `0b111` (tag, type and flag fields all zero) and decode
back to `0b111` with zero unmapped bits. -/
theorem C3_table_roundtrip :
    (∀ (t : List RSYNC_ACEMAP_T) (native : Nat),
        WFTable t → native < 2 ^ 32 → CoversNative t native →
        ∃ c, encode_native_to_canonical t native = (c, 0)
          ∧ decode_canonical_to_native t c = (native, 0))
    ∧ (∀ (t : List RSYNC_ACEMAP_T) (canonical : Nat),
        WFTable t → canonical < 2 ^ 32 → CoversCanonical t canonical →
        ∃ n, decode_canonical_to_native t canonical = (n, 0)
          ∧ encode_native_to_canonical t n = (canonical, 0))
    ∧ (encode_native_to_canonical posixIdTable 7 = (7, 0)
      ∧ (7 : Nat) &&& RSYNC_ACE_PERM_NFS4_BITS = 7
      ∧ (7 : Nat) &&& RSYNC_ACE_TAG_BITS = 0
      ∧ (7 : Nat) &&& RSYNC_ACE_TYPE_BITS = 0
      ∧ (7 : Nat) &&& RSYNC_ACE_FLAG_BITS = 0
      ∧ decode_canonical_to_native posixIdTable 7 = (7, 0)) := by
  refine ⟨?_, ?_, by decide, by decide, by decide, by decide, by decide, by decide⟩
  · intro t native hwf h32 hcov
    obtain ⟨h1, h2⟩ := roundtrip_encode_decode hwf h32 hcov
    refine ⟨(encode_native_to_canonical t native).1, ?_, h2⟩
    rw [← h1]
  · intro t canonical hwf h32 hcov
    have hwf2 := wfTable_map_flipMap hwf
    have hcov2 : CoversNative (t.map flipMap) canonical :=
      (coversCanonical_iff_flip t canonical).mp hcov
    obtain ⟨h1, h2⟩ := roundtrip_encode_decode hwf2 h32 hcov2
    refine ⟨(encode_native_to_canonical (t.map flipMap) canonical).1, ?_, ?_⟩
    · show decodeBitsAux t canonical 32 = _
      rw [decodeBitsAux_eq_flip]
      show encode_native_to_canonical (t.map flipMap) canonical = _
      rw [← h1]
    · show encodeBitsAux t _ 32 = (canonical, 0)
      rw [encodeBitsAux_eq_flip]
      exact h2

/-- C3 witness: the native-to-canonical round trip of
`C3_table_roundtrip` instantiated at the identity POSIX table and the
native bits `0b111`, with every hypothesis discharged concretely. -/
theorem C3_table_roundtrip_witness :
    (WFTable posixIdTable ∧ (7 : Nat) < 2 ^ 32 ∧ CoversNative posixIdTable 7)
    ∧ (∃ c, encode_native_to_canonical posixIdTable 7 = (c, 0)
        ∧ decode_canonical_to_native posixIdTable c = (7, 0)) :=
  ⟨⟨wf_posixIdTable, by norm_num, covers_posixIdTable_seven⟩,
    C3_table_roundtrip.1 posixIdTable 7 wf_posixIdTable (by norm_num)
      covers_posixIdTable_seven⟩

/-! ### Table construction -/

/-- Modelled from the spec: `build_table(pairs: ordered sequence of
(canonical_bit, native_bit)) -> Result<Table, DuplicateMapping>`,
missing from the sources.  "Fails if any canonical_bit or native_bit
repeats across entries."  `some table` stands for Ok, `none` for the
single error `DuplicateMapping`. -/
def build_table (pairs : List (Nat × Nat)) : Option (List RSYNC_ACEMAP_T) :=
  if (pairs.map Prod.fst).Nodup ∧ (pairs.map Prod.snd).Nodup then
    some (pairs.map fun p => ⟨p.1, p.2⟩)
  else none

theorem not_nodup_iff_count (l : List Nat) : ¬ l.Nodup ↔ ∃ b, 2 ≤ l.count b := by
  rw [List.nodup_iff_count_le_one]
  push_neg
  constructor
  · rintro ⟨a, ha⟩; exact ⟨a, by omega⟩
  · rintro ⟨a, ha⟩; exact ⟨a, by omega⟩

/-- C4: `build_table` reports `DuplicateMapping` exactly when some
canonical bit value or some native bit value occurs in more than one
pair of the sequence; on success the table it returns carries the pairs
in order and is a partial bijection: no canonical bit and no native bit
appears twice, so entries agreeing on either side are equal. -/
theorem C4_build_table_partial_bijection (pairs : List (Nat × Nat)) :
    (build_table pairs = none ↔
      (∃ b, 2 ≤ (pairs.map Prod.fst).count b) ∨ (∃ b, 2 ≤ (pairs.map Prod.snd).count b))
    ∧ ∀ t, build_table pairs = some t →
        t = pairs.map (fun p => ⟨p.1, p.2⟩)
        ∧ (t.map RSYNC_ACEMAP_T.rsync).Nodup
        ∧ (t.map RSYNC_ACEMAP_T.impl).Nodup
        ∧ ∀ e₁ ∈ t, ∀ e₂ ∈ t, (e₁.rsync = e₂.rsync ∨ e₁.impl = e₂.impl) → e₁ = e₂ := by
  have hmapr : (pairs.map fun p => (⟨p.1, p.2⟩ : RSYNC_ACEMAP_T)).map RSYNC_ACEMAP_T.rsync
      = pairs.map Prod.fst := by
    rw [List.map_map]; rfl
  have hmapi : (pairs.map fun p => (⟨p.1, p.2⟩ : RSYNC_ACEMAP_T)).map RSYNC_ACEMAP_T.impl
      = pairs.map Prod.snd := by
    rw [List.map_map]; rfl
  by_cases h : (pairs.map Prod.fst).Nodup ∧ (pairs.map Prod.snd).Nodup
  · constructor
    · rw [build_table, if_pos h]
      simp only [reduceCtorEq, false_iff]
      rintro (hc | hc) <;>
        [exact absurd h.1 ((not_nodup_iff_count _).mpr hc);
         exact absurd h.2 ((not_nodup_iff_count _).mpr hc)]
    · intro t ht
      rw [build_table, if_pos h] at ht
      cases Option.some.inj ht
      refine ⟨rfl, by rw [hmapr]; exact h.1, by rw [hmapi]; exact h.2, ?_⟩
      intro e₁ he₁ e₂ he₂ he
      rcases he with he | he
      · exact List.inj_on_of_nodup_map (by rw [hmapr]; exact h.1) he₁ he₂ he
      · exact List.inj_on_of_nodup_map (by rw [hmapi]; exact h.2) he₁ he₂ he
  · constructor
    · rw [build_table, if_neg h]
      simp only [true_iff]
      rcases Decidable.not_and_iff_or_not.mp h with hn | hn
      · exact Or.inl ((not_nodup_iff_count _).mp hn)
      · exact Or.inr ((not_nodup_iff_count _).mp hn)
    · intro t ht
      rw [build_table, if_neg h] at ht
      exact absurd ht (by simp)

/-- C4 witness: `C4_build_table_partial_bijection` instantiated at a
concrete duplicate-free pair list, discharging the success branch. -/
theorem C4_build_table_partial_bijection_witness :
    build_table [(1, 2), (4, 8)] = some [⟨1, 2⟩, ⟨4, 8⟩]
    ∧ (([⟨1, 2⟩, ⟨4, 8⟩] : List RSYNC_ACEMAP_T)
          = [(1, 2), (4, 8)].map (fun p => ⟨p.1, p.2⟩)
        ∧ (([⟨1, 2⟩, ⟨4, 8⟩] : List RSYNC_ACEMAP_T).map RSYNC_ACEMAP_T.rsync).Nodup
        ∧ (([⟨1, 2⟩, ⟨4, 8⟩] : List RSYNC_ACEMAP_T).map RSYNC_ACEMAP_T.impl).Nodup
        ∧ ∀ e₁ ∈ ([⟨1, 2⟩, ⟨4, 8⟩] : List RSYNC_ACEMAP_T),
            ∀ e₂ ∈ ([⟨1, 2⟩, ⟨4, 8⟩] : List RSYNC_ACEMAP_T),
            (e₁.rsync = e₂.rsync ∨ e₁.impl = e₂.impl) → e₁ = e₂) :=
  ⟨by decide,
    (C4_build_table_partial_bijection [(1, 2), (4, 8)]).2 [⟨1, 2⟩, ⟨4, 8⟩] (by decide)⟩

/-! ### ACE translation -/

inductive TranslationError where
  | unmapped (bits : Nat)
  | invalidEncoding
  | brandMismatch
deriving DecidableEq, Repr

/-- A native ACE as supplied by a platform ACL reader: raw permission,
tag+type and flag bit groups in the platform's own bit assignment, plus
the brand and the externally supplied principal identifier. -/
structure NativeAce where
  brand : RSYNC_ACL_BRAND_T
  perm_bits : Nat
  tagtype_bits : Nat
  flag_bits : Nat
  principal : Nat
deriving DecidableEq, Repr

/-- Decode the 3-bit tag field of a canonical value (total because all
eight tag values are defined). -/
def tagOfBits (v : Nat) : RSYNC_ACE_TAG_T :=
  match (v >>> 14) % 8 with
  | 0 => .RSYNC_ACE_TAG_UNDEFINED
  | 1 => .RSYNC_ACE_TAG_USER_OBJ
  | 2 => .RSYNC_ACE_TAG_USER
  | 3 => .RSYNC_ACE_TAG_GROUP_OBJ
  | 4 => .RSYNC_ACE_TAG_GROUP
  | 5 => .RSYNC_ACE_TAG_OTHER
  | 6 => .RSYNC_ACE_TAG_MASK
  | _ => .RSYNC_ACE_TAG_EVERYONE

/-- Decode the 2-bit type field of a canonical value (total because all
four type values are defined). -/
def typeOfBits (v : Nat) : RSYNC_ACE_TYPE_T :=
  match (v >>> 17) % 4 with
  | 0 => .RSYNC_ACE_TYPE_ALLOW
  | 1 => .RSYNC_ACE_TYPE_DENY
  | 2 => .RSYNC_ACE_TYPE_AUDIT
  | _ => .RSYNC_ACE_TYPE_ALARM

/-- Split a canonical 32-bit value into the fields of an `ACE`. -/
def aceOfCanonical (brand : RSYNC_ACL_BRAND_T) (v principal : Nat) : ACE :=
  ⟨brand, v &&& RSYNC_ACE_PERM_NFS4_BITS, tagOfBits v, typeOfBits v,
    v &&& RSYNC_ACE_FLAG_BITS, principal⟩

/-- Modelled from the spec: `translate_ace(table, ace_native_fields) ->
Result<Ace, TranslationError>`, missing from the sources.  It "applies
the three bit-group translations (permissions, tag+type combined,
flags) in sequence, then runs `validate` and `validate_for_brand`;
returns `TranslationError::Unmapped(bits)` if any group produced a
nonzero unmapped residue, or
`TranslationError::InvalidEncoding`/`BrandMismatch` from validation". -/
def translate_ace (table : List RSYNC_ACEMAP_T) (na : NativeAce) :
    Except TranslationError ACE :=
  let pp := encode_native_to_canonical table na.perm_bits
  let tt := encode_native_to_canonical table na.tagtype_bits
  let ff := encode_native_to_canonical table na.flag_bits
  let u := pp.2 ||| tt.2 ||| ff.2
  if u ≠ 0 then .error (.unmapped u)
  else
    let v := pp.1 ||| tt.1 ||| ff.1
    if validate v = false then .error .invalidEncoding
    else
      let ace := aceOfCanonical na.brand v na.principal
      if validate_for_brand ace na.brand = false then .error .brandMismatch
      else .ok ace

/-- C7: whenever any of the three bit-group translations leaves a
nonzero unmapped residue, `translate_ace` returns an error carrying
exactly those unmapped bits rather than a truncated ACE; in particular
an NFS4 ace with permission bit 10 (Read ACL) set, translated through a
table with no entry for that bit, yields `Unmapped(1<<10)`. -/
theorem C7_translate_ace_unmapped :
    (∀ (t : List RSYNC_ACEMAP_T) (na : NativeAce),
        (encode_native_to_canonical t na.perm_bits).2
          ||| (encode_native_to_canonical t na.tagtype_bits).2
          ||| (encode_native_to_canonical t na.flag_bits).2 ≠ 0 →
        translate_ace t na = .error (.unmapped
          ((encode_native_to_canonical t na.perm_bits).2
            ||| (encode_native_to_canonical t na.tagtype_bits).2
            ||| (encode_native_to_canonical t na.flag_bits).2)))
    ∧ translate_ace posixIdTable
        ⟨.RSYNC_ACL_BRAND_NFS4, _RSYNC_ACE_PERM_RC, 0, 0, 0⟩
        = .error (.unmapped (1 <<< 10)) := by
  constructor
  · intro t na h
    simp only [translate_ace]
    rw [if_pos h]
  · rfl

/-- C7 witness: `C7_translate_ace_unmapped` applied at the identity
POSIX table and the Read-ACL native ace, discharging the nonzero
residue hypothesis concretely. -/
theorem C7_translate_ace_unmapped_witness :
    ((encode_native_to_canonical posixIdTable
        (NativeAce.mk .RSYNC_ACL_BRAND_NFS4 _RSYNC_ACE_PERM_RC 0 0 0).perm_bits).2
      ||| (encode_native_to_canonical posixIdTable
        (NativeAce.mk .RSYNC_ACL_BRAND_NFS4 _RSYNC_ACE_PERM_RC 0 0 0).tagtype_bits).2
      ||| (encode_native_to_canonical posixIdTable
        (NativeAce.mk .RSYNC_ACL_BRAND_NFS4 _RSYNC_ACE_PERM_RC 0 0 0).flag_bits).2 ≠ 0)
    ∧ translate_ace posixIdTable
        (NativeAce.mk .RSYNC_ACL_BRAND_NFS4 _RSYNC_ACE_PERM_RC 0 0 0)
        = .error (.unmapped
          ((encode_native_to_canonical posixIdTable
              (NativeAce.mk .RSYNC_ACL_BRAND_NFS4 _RSYNC_ACE_PERM_RC 0 0 0).perm_bits).2
            ||| (encode_native_to_canonical posixIdTable
              (NativeAce.mk .RSYNC_ACL_BRAND_NFS4 _RSYNC_ACE_PERM_RC 0 0 0).tagtype_bits).2
            ||| (encode_native_to_canonical posixIdTable
              (NativeAce.mk .RSYNC_ACL_BRAND_NFS4 _RSYNC_ACE_PERM_RC 0 0 0).flag_bits).2)) :=
  ⟨by decide,
    C7_translate_ace_unmapped.1 posixIdTable
      (NativeAce.mk .RSYNC_ACL_BRAND_NFS4 _RSYNC_ACE_PERM_RC 0 0 0) (by decide)⟩

/-! ### ACL translation -/

/-- A translation failure of a whole ACL: the index of the first entry
that failed and that entry's error. -/
structure AclTranslationError where
  index : Nat
  error : TranslationError
deriving DecidableEq, Repr

/-- A native ACL: the type discriminator and the ordered native
entries. -/
structure NativeAcl where
  type : RSYNC_ACL_TYPE_T
  entries : List NativeAce
deriving DecidableEq, Repr

/-- A canonical ACL: the type discriminator and the ordered canonical
entries. -/
structure ACL where
  type : RSYNC_ACL_TYPE_T
  entries : List ACE
deriving DecidableEq, Repr

/-- Modelled from the spec: worker of `translate_acl`, translating the
entries in order; `i` is the index of the first entry of the remaining
list within the whole ACL. -/
def translate_acl_from (table : List RSYNC_ACEMAP_T) (i : Nat) :
    List NativeAce → Except AclTranslationError (List ACE)
  | [] => .ok []
  | na :: rest =>
    match translate_ace table na with
    | .error e => .error ⟨i, e⟩
    | .ok ace =>
      match translate_acl_from table (i + 1) rest with
      | .error err => .error err
      | .ok aces => .ok (ace :: aces)

/-- Modelled from the spec: `translate_acl(table, native_acl) ->
Result<Acl, TranslationError>`, missing from the sources.  It
"translates every entry in order, preserving sequence; fails on the
first entry that fails `translate_ace`, reporting which entry (index)
and which bits were unmapped — no partial/best-effort ACL is ever
returned". -/
def translate_acl (table : List RSYNC_ACEMAP_T) (nacl : NativeAcl) :
    Except AclTranslationError ACL :=
  match translate_acl_from table 0 nacl.entries with
  | .error err => .error err
  | .ok aces => .ok ⟨nacl.type, aces⟩

theorem translate_acl_from_ok (t : List RSYNC_ACEMAP_T) :
    ∀ (l : List NativeAce) (i : Nat) (res : List ACE),
      translate_acl_from t i l = .ok res →
      res.length = l.length
      ∧ ∀ k (hk : k < l.length) (hk2 : k < res.length),
          translate_ace t (l.get ⟨k, hk⟩) = .ok (res.get ⟨k, hk2⟩) := by
  intro l
  induction l with
  | nil =>
    intro i res h
    cases Except.ok.inj h
    exact ⟨rfl, fun k hk _ => absurd hk (by simp)⟩
  | cons na rest ih =>
    intro i res h
    simp only [translate_acl_from] at h
    cases hta : translate_ace t na with
    | error e => rw [hta] at h; exact absurd h (by simp)
    | ok ace =>
      rw [hta] at h
      cases hrest : translate_acl_from t (i + 1) rest with
      | error err => rw [hrest] at h; exact absurd h (by simp)
      | ok aces =>
        rw [hrest] at h
        cases Except.ok.inj h
        obtain ⟨hlen, hall⟩ := ih (i + 1) aces hrest
        refine ⟨by simp [hlen], ?_⟩
        intro k hk hk2
        cases k with
        | zero => simpa using hta
        | succ k =>
          have hk3 : k < rest.length := by simpa using hk
          have hk4 : k < aces.length := by simpa using hk2
          simpa using hall k hk3 hk4

theorem translate_acl_from_error (t : List RSYNC_ACEMAP_T) :
    ∀ (l : List NativeAce) (i : Nat) (err : AclTranslationError),
      translate_acl_from t i l = .error err →
      i ≤ err.index
      ∧ ∃ hk : err.index - i < l.length,
          translate_ace t (l.get ⟨err.index - i, hk⟩) = .error err.error
          ∧ ∀ k, k < err.index - i → ∀ hk2 : k < l.length,
              ∃ ace, translate_ace t (l.get ⟨k, hk2⟩) = .ok ace := by
  intro l
  induction l with
  | nil =>
    intro i err h
    exact absurd h (by simp [translate_acl_from])
  | cons na rest ih =>
    intro i err h
    simp only [translate_acl_from] at h
    cases hta : translate_ace t na with
    | error e =>
      rw [hta] at h
      cases Except.error.inj h
      refine ⟨Nat.le_refl i, ?_⟩
      have hz : i - i = 0 := by omega
      refine ⟨by simp [hz], ?_, ?_⟩
      · simp only [hz, List.get]
        exact hta
      · intro k hk
        rw [hz] at hk
        exact absurd hk (by omega)
    | ok ace =>
      rw [hta] at h
      cases hrest : translate_acl_from t (i + 1) rest with
      | ok aces => rw [hrest] at h; exact absurd h (by simp)
      | error err0 =>
        rw [hrest] at h
        cases Except.error.inj h
        obtain ⟨hle, hm, htrans, hpre⟩ := ih (i + 1) err hrest
        refine ⟨by omega, ?_⟩
        have hstep : err.index - i = (err.index - (i + 1)) + 1 := by omega
        refine ⟨by simp; omega, ?_, ?_⟩
        · rw [show (⟨err.index - i, by simp; omega⟩ :
              Fin (na :: rest).length) = ⟨(err.index - (i + 1)) + 1, by simp; omega⟩
              from by simp [hstep]]
          simpa using htrans
        · intro k hk hk2
          cases k with
          | zero => exact ⟨ace, by simpa using hta⟩
          | succ k =>
            have hk3 : k < err.index - (i + 1) := by omega
            have hk4 : k < rest.length := by simpa using hk2
            obtain ⟨a, ha⟩ := hpre k hk3 hk4
            exact ⟨a, by simpa using ha⟩

/-- C8: `translate_acl` translates entries in order and preserves the
sequence: on success every canonical entry at position `k` is the
translation of the native entry at position `k`; on failure it reports
the index of the first failing entry together with that entry's error
(carrying the unmapped bits), every earlier entry translates
successfully, and no ACL value is returned at all. -/
theorem C8_translate_acl_all_or_nothing (t : List RSYNC_ACEMAP_T) (nacl : NativeAcl) :
    (∀ acl, translate_acl t nacl = .ok acl →
      acl.type = nacl.type
      ∧ acl.entries.length = nacl.entries.length
      ∧ ∀ k (hk : k < nacl.entries.length) (hk2 : k < acl.entries.length),
          translate_ace t (nacl.entries.get ⟨k, hk⟩) = .ok (acl.entries.get ⟨k, hk2⟩))
    ∧ (∀ err, translate_acl t nacl = .error err →
        ∃ hk : err.index < nacl.entries.length,
          translate_ace t (nacl.entries.get ⟨err.index, hk⟩) = .error err.error
          ∧ ∀ k (hk2 : k < err.index),
              ∃ ace, translate_ace t (nacl.entries.get ⟨k, Nat.lt_trans hk2 hk⟩)
                = .ok ace) := by
  constructor
  · intro acl h
    unfold translate_acl at h
    cases hfrom : translate_acl_from t 0 nacl.entries with
    | error err => rw [hfrom] at h; exact absurd h (by simp)
    | ok aces =>
      rw [hfrom] at h
      cases Except.ok.inj h
      obtain ⟨hlen, hall⟩ := translate_acl_from_ok t nacl.entries 0 aces hfrom
      exact ⟨rfl, hlen, hall⟩
  · intro err h
    unfold translate_acl at h
    cases hfrom : translate_acl_from t 0 nacl.entries with
    | ok aces => rw [hfrom] at h; exact absurd h (by simp)
    | error err0 =>
      rw [hfrom] at h
      cases Except.error.inj h
      obtain ⟨-, hm, htrans, hpre⟩ := translate_acl_from_error t nacl.entries 0 err hfrom
      refine ⟨hm, htrans, ?_⟩
      intro k hk2
      obtain ⟨a, ha⟩ := hpre k hk2 (Nat.lt_trans hk2 hm)
      exact ⟨a, ha⟩

/-- The concrete two-entry native ACL of the all-or-nothing scenario:
a translatable POSIX-style `rwx` entry followed by an entry whose
Read-ACL permission bit has no table mapping. -/
def cNativeAcl : NativeAcl :=
  ⟨.RSYNC_ACL_TYPE_NFS4,
   [⟨.RSYNC_ACL_BRAND_NFS4, 7, 0, 0, 0⟩,
    ⟨.RSYNC_ACL_BRAND_NFS4, _RSYNC_ACE_PERM_RC, 0, 0, 0⟩]⟩

/-- C8 witness: `C8_translate_acl_all_or_nothing` applied at the
identity POSIX table and a two-entry ACL whose second entry fails:
the failure is reported at index 1 and the first entry translated. -/
theorem C8_translate_acl_all_or_nothing_witness :
    translate_acl posixIdTable cNativeAcl = .error ⟨1, .unmapped (1 <<< 10)⟩
    ∧ ∃ hk : (1 : Nat) < cNativeAcl.entries.length,
        translate_ace posixIdTable (cNativeAcl.entries.get ⟨1, hk⟩)
          = .error (.unmapped (1 <<< 10))
        ∧ ∀ k (hk2 : k < 1),
            ∃ ace, translate_ace posixIdTable
              (cNativeAcl.entries.get ⟨k, Nat.lt_trans hk2 hk⟩) = .ok ace :=
  ⟨rfl,
    (C8_translate_acl_all_or_nothing posixIdTable cNativeAcl).2
      ⟨1, .unmapped (1 <<< 10)⟩ rfl⟩

/-! ### Agreement of the two naming schemes -/

/-- C9: every enumerant defined under both naming schemes — the
underscore-prefixed preprocessor constants and the enum members of
`RSYNC_ACL_BRAND_T`, `RSYNC_ACL_TYPE_T`, `RSYNC_ACE_PERM_T`,
`RSYNC_ACE_TAG_T`, `RSYNC_ACE_TYPE_T` and `RSYNC_ACE_FLAG_T` — denotes
exactly the same numeric value under both, so the duplicated
vocabularies are interchangeable. -/
theorem C9_enum_macro_agreement :
    RSYNC_ACL_BRAND_T.RSYNC_ACL_BRAND_UNKNOWN.val = _RSYNC_ACL_BRAND_UNKNOWN
    ∧ RSYNC_ACL_BRAND_T.RSYNC_ACL_BRAND_POSIX.val = _RSYNC_ACL_BRAND_POSIX
    ∧ RSYNC_ACL_BRAND_T.RSYNC_ACL_BRAND_NFS4.val = _RSYNC_ACL_BRAND_NFS4
    ∧ RSYNC_ACL_TYPE_T.RSYNC_ACL_TYPE_UNKNOWN.val = _RSYNC_ACL_TYPE_UNKNOWN
    ∧ RSYNC_ACL_TYPE_T.RSYNC_ACL_TYPE_ACCESS.val = _RSYNC_ACL_TYPE_ACCESS
    ∧ RSYNC_ACL_TYPE_T.RSYNC_ACL_TYPE_DEFAULT.val = _RSYNC_ACL_TYPE_DEFAULT
    ∧ RSYNC_ACL_TYPE_T.RSYNC_ACL_TYPE_NFS4.val = _RSYNC_ACL_TYPE_NFS4
    ∧ RSYNC_ACE_PERM_T.RSYNC_ACE_PERM_X.val = _RSYNC_ACE_PERM_X
    ∧ RSYNC_ACE_PERM_T.RSYNC_ACE_PERM_W.val = _RSYNC_ACE_PERM_W
    ∧ RSYNC_ACE_PERM_T.RSYNC_ACE_PERM_R.val = _RSYNC_ACE_PERM_R
    ∧ RSYNC_ACE_PERM_T.RSYNC_ACE_PERM_AD.val = _RSYNC_ACE_PERM_AD
    ∧ RSYNC_ACE_PERM_T.RSYNC_ACE_PERM_REA.val = _RSYNC_ACE_PERM_REA
    ∧ RSYNC_ACE_PERM_T.RSYNC_ACE_PERM_WEA.val = _RSYNC_ACE_PERM_WEA
    ∧ RSYNC_ACE_PERM_T.RSYNC_ACE_PERM_DC.val = _RSYNC_ACE_PERM_DC
    ∧ RSYNC_ACE_PERM_T.RSYNC_ACE_PERM_RA.val = _RSYNC_ACE_PERM_RA
    ∧ RSYNC_ACE_PERM_T.RSYNC_ACE_PERM_WA.val = _RSYNC_ACE_PERM_WA
    ∧ RSYNC_ACE_PERM_T.RSYNC_ACE_PERM_D.val = _RSYNC_ACE_PERM_D
    ∧ RSYNC_ACE_PERM_T.RSYNC_ACE_PERM_RC.val = _RSYNC_ACE_PERM_RC
    ∧ RSYNC_ACE_PERM_T.RSYNC_ACE_PERM_WDAC.val = _RSYNC_ACE_PERM_WDAC
    ∧ RSYNC_ACE_PERM_T.RSYNC_ACE_PERM_WO.val = _RSYNC_ACE_PERM_WO
    ∧ RSYNC_ACE_PERM_T.RSYNC_ACE_PERM_S.val = _RSYNC_ACE_PERM_S
    ∧ RSYNC_ACE_TAG_T.RSYNC_ACE_TAG_UNDEFINED.val = _RSYNC_ACE_TAG_UNDEFINED
    ∧ RSYNC_ACE_TAG_T.RSYNC_ACE_TAG_USER_OBJ.val = _RSYNC_ACE_TAG_USER_OBJ
    ∧ RSYNC_ACE_TAG_T.RSYNC_ACE_TAG_USER.val = _RSYNC_ACE_TAG_USER
    ∧ RSYNC_ACE_TAG_T.RSYNC_ACE_TAG_GROUP_OBJ.val = _RSYNC_ACE_TAG_GROUP_OBJ
    ∧ RSYNC_ACE_TAG_T.RSYNC_ACE_TAG_GROUP.val = _RSYNC_ACE_TAG_GROUP
    ∧ RSYNC_ACE_TAG_T.RSYNC_ACE_TAG_OTHER.val = _RSYNC_ACE_TAG_OTHER
    ∧ RSYNC_ACE_TAG_T.RSYNC_ACE_TAG_MASK.val = _RSYNC_ACE_TAG_MASK
    ∧ RSYNC_ACE_TAG_T.RSYNC_ACE_TAG_EVERYONE.val = _RSYNC_ACE_TAG_EVERYONE
    ∧ RSYNC_ACE_TYPE_T.RSYNC_ACE_TYPE_ALLOW.val = _RSYNC_ACE_TYPE_ALLOW
    ∧ RSYNC_ACE_TYPE_T.RSYNC_ACE_TYPE_DENY.val = _RSYNC_ACE_TYPE_DENY
    ∧ RSYNC_ACE_TYPE_T.RSYNC_ACE_TYPE_AUDIT.val = _RSYNC_ACE_TYPE_AUDIT
    ∧ RSYNC_ACE_TYPE_T.RSYNC_ACE_TYPE_ALARM.val = _RSYNC_ACE_TYPE_ALARM
    ∧ RSYNC_ACE_FLAG_T.RSYNC_ACE_FLAG_OI.val = _RSYNC_ACE_FLAG_OI
    ∧ RSYNC_ACE_FLAG_T.RSYNC_ACE_FLAG_CI.val = _RSYNC_ACE_FLAG_CI
    ∧ RSYNC_ACE_FLAG_T.RSYNC_ACE_FLAG_NI.val = _RSYNC_ACE_FLAG_NI
    ∧ RSYNC_ACE_FLAG_T.RSYNC_ACE_FLAG_IONLY.val = _RSYNC_ACE_FLAG_IONLY
    ∧ RSYNC_ACE_FLAG_T.RSYNC_ACE_FLAG_I.val = _RSYNC_ACE_FLAG_I
    ∧ RSYNC_ACE_FLAG_T.RSYNC_ACE_FLAG_SA.val = _RSYNC_ACE_FLAG_SA
    ∧ RSYNC_ACE_FLAG_T.RSYNC_ACE_FLAG_FA.val = _RSYNC_ACE_FLAG_FA := by
  decide

end StdAcls
